import Mathlib

/-!
Verification development for the GhostWire Refractory memory service.

The Python sources are shallowly embedded into Lean:

* float vectors become lists of rationals (`Vec := List ℚ`); float
  arithmetic is modeled exactly over `ℚ`;
* `np.linalg.norm` computes a square root, which is not rational, so every
  function that needs it takes an abstract square-root model `s : ℚ → ℚ`
  as an explicit parameter; theorems either hold for every `s` or assume
  only the properties of a square root that the proof needs
  (`s 0 = 0`, nonnegativity on nonnegative inputs);
* the SQLite row store becomes an explicit list of rows, the HNSW index
  outcome becomes an explicit `AnnOutcome` value, and HTTP upstreams
  become oracle functions passed as parameters;
* fallible code returns `Option` or an explicit status value.
-/

namespace Ghostwire

/-- Dense float vector, modeled as a list of rationals. -/
abbrev Vec := List ℚ

/-- Model of `np.dot` on two vectors: sum of componentwise products
(extra components of the longer vector contribute nothing; NumPy would
raise on a length mismatch, and all call sites use equal lengths). -/
def dot : Vec → Vec → ℚ
  | a :: as, b :: bs => a * b + dot as bs
  | _, _ => 0

/-- Sum of squares of a vector; `np.linalg.norm v` is modeled as
`s (normSq v)` for an abstract square-root model `s`. -/
def normSq (v : Vec) : ℚ := dot v v

/-- L1 norm: sum of absolute values of the components. -/
def l1 (v : Vec) : ℚ := (v.map (fun x => |x|)).sum

/-- The literal `1e-8` used throughout the sources. -/
def eps8 : ℚ := 1 / 100000000

/-- The literal `1e-12` used by the all-zero guard in
`EmbeddingService.create_embedding`. -/
def eps12 : ℚ := 1 / 1000000000000

theorem dot_self_nonneg (v : Vec) : 0 ≤ dot v v := by
  induction v with
  | nil => simp [dot]
  | cons a as ih =>
    have ha : 0 ≤ a * a := mul_self_nonneg a
    simpa [dot] using add_nonneg ha ih

theorem normSq_nonneg (v : Vec) : 0 ≤ normSq v := dot_self_nonneg v

theorem normSq_replicate_zero (n : ℕ) : normSq (List.replicate n 0) = 0 := by
  induction n with
  | zero => simp [normSq, dot]
  | succ k ih => simpa [normSq, dot, List.replicate_succ] using ih

/-! ## Normalization (`normalize_vector`, `_normalize`) and cosine kernels -/

/-- Embedding of `normalize_vector` from
`src/python/ghostwire/utils/vector_utils.py`:
compute the L2 norm, return the vector unchanged when the norm is zero,
otherwise divide every component by the norm. -/
def normalize_vector (s : ℚ → ℚ) (v : Vec) : Vec :=
  let norm := s (normSq v)
  if norm = 0 then v else v.map (fun x => x / norm)

/-- Embedding of `_normalize` from `src/ghostwire-controller.py`:
`v / (np.linalg.norm(v) + 1e-8)`. -/
def ctrlNormalize (s : ℚ → ℚ) (v : Vec) : Vec :=
  v.map (fun x => x / (s (normSq v) + eps8))

/-- Embedding of the local `cosine` helper inside
`query_similar_by_embedding` (both controllers):
`np.dot(a, b) / ((np.linalg.norm(a) + 1e-8) * (np.linalg.norm(b) + 1e-8))`. -/
def ctrlCosine (s : ℚ → ℚ) (a b : Vec) : ℚ :=
  dot a b / ((s (normSq a) + eps8) * (s (normSq b) + eps8))

/-- Embedding of `CacheService._calculate_similarity` from
`src/python/ghostwire/services/cache_service.py`: dot product over the
product of the norms, with an explicit zero-denominator branch returning
`0.0`. -/
def calcSimilarity (s : ℚ → ℚ) (a b : Vec) : ℚ :=
  let normProduct := s (normSq a) * s (normSq b)
  if normProduct = 0 then 0 else dot a b / normProduct

/-- Embedding of the cosine similarity computed by
`MemoryRepository.query_similar_by_embedding` from
`src/python/src/ghostwire/database/repositories.py`:
`dot / (norm_product + 1e-8)`. -/
def repoCosine (s : ℚ → ℚ) (a b : Vec) : ℚ :=
  dot a b / (s (normSq a) * s (normSq b) + eps8)

/-- Properties of an abstract square-root model that the theorems use:
zero maps to zero and nonnegative inputs map to nonnegative outputs.
The identity function satisfies both, so the assumptions are satisfiable. -/
def SqrtModel (s : ℚ → ℚ) : Prop :=
  s 0 = 0 ∧ ∀ x : ℚ, 0 ≤ x → 0 ≤ s x

theorem sqrtModel_id : SqrtModel id := ⟨rfl, fun _ hx => hx⟩

/-- C10. Normalization is total and stays finite in the model: it always
produces a vector of the same length, the all-zero vector is returned
unchanged (so it is not unit-norm), the zero-norm branch of the cache
similarity returns 0 on an all-zero argument, and the epsilon-guarded
denominators of the controller and repository cosines are strictly
positive, so no division by zero occurs downstream. -/
theorem C10_normalize_total_and_guarded
    (s : ℚ → ℚ) (hs : SqrtModel s) (n : ℕ) (v w : Vec) :
    (normalize_vector s v).length = v.length ∧
    normalize_vector s (List.replicate n 0) = List.replicate n 0 ∧
    normSq (normalize_vector s (List.replicate n 0)) = 0 ∧
    calcSimilarity s (List.replicate n 0) w = 0 ∧
    0 < (s (normSq v) + eps8) * (s (normSq w) + eps8) ∧
    0 < s (normSq v) * s (normSq w) + eps8 := by
  obtain ⟨h0, hpos⟩ := hs
  have hz : normSq (List.replicate n 0) = 0 := normSq_replicate_zero n
  have hlen : (normalize_vector s v).length = v.length := by
    unfold normalize_vector
    by_cases h : s (normSq v) = 0 <;> simp [h]
  have hnv : normalize_vector s (List.replicate n 0) = List.replicate n 0 := by
    unfold normalize_vector
    simp [hz, h0]
  have heps : (0 : ℚ) < eps8 := by norm_num [eps8]
  have hv := hpos _ (normSq_nonneg v)
  have hw := hpos _ (normSq_nonneg w)
  refine ⟨hlen, hnv, by rw [hnv, hz], ?_, ?_, ?_⟩
  · unfold calcSimilarity
    simp [hz, h0]
  · exact mul_pos (by linarith) (by linarith)
  · have : 0 ≤ s (normSq v) * s (normSq w) := mul_nonneg hv hw
    linarith

/-- Witness for C10 at a concrete instance: the identity square-root
model, dimension 2, and the vectors `[1, 0]` and `[0, 1]`. -/
theorem C10_witness :
    (normalize_vector id [(1 : ℚ), 0]).length = 2 ∧
    normalize_vector id (List.replicate 2 (0 : ℚ)) = List.replicate 2 0 ∧
    normSq (normalize_vector id (List.replicate 2 (0 : ℚ))) = 0 ∧
    calcSimilarity id (List.replicate 2 (0 : ℚ)) [(0 : ℚ), 1] = 0 ∧
    0 < (id (normSq [(1 : ℚ), 0]) + eps8) * (id (normSq [(0 : ℚ), 1]) + eps8) ∧
    0 < id (normSq [(1 : ℚ), 0]) * id (normSq [(0 : ℚ), 1]) + eps8 := by
  simpa using
    C10_normalize_total_and_guarded id sqrtModel_id 2 [(1 : ℚ), 0] [(0 : ℚ), 1]

/-! ## Row store, ANN outcome, and the two retrieval implementations -/

/-- A row of the `memory_text` table. The embedding blob is `none` when the
column is NULL. -/
structure Turn where
  id : ℕ
  session_id : String
  prompt_text : String
  answer_text : String
  timestamp : ℚ
  embedding : Option Vec
deriving Repr, DecidableEq

/-- The `memory_text` table, in insertion (rowid) order. -/
abbrev Store := List Turn

/-- Outcome of the guarded HNSW block of a retrieval call: the index may be
empty (`get_current_count() == 0`), the `knn_query` call may raise, or it
returns a ranked id list. -/
inductive AnnOutcome
  | empty
  | failed
  | ranked (ids : List ℕ)
deriving Repr, DecidableEq

/-- Descending-by-score order used by the cosine fallbacks
(`scored.sort(key=lambda x: x[0], reverse=True)`); Python sorts are stable,
modeled by the stable `List.insertionSort`. -/
def scoreOrder : (ℚ × Turn) → (ℚ × Turn) → Prop := fun a b => b.1 ≤ a.1

instance : DecidableRel scoreOrder := fun a b => inferInstanceAs (Decidable (b.1 ≤ a.1))

instance : IsTotal (ℚ × Turn) scoreOrder := ⟨fun a b => le_total b.1 a.1⟩

instance : IsTrans (ℚ × Turn) scoreOrder := ⟨fun _ _ _ h1 h2 => le_trans h2 h1⟩

/-- Descending-by-timestamp order of `ORDER BY timestamp DESC`. -/
def tsOrder : Turn → Turn → Prop := fun a b => b.timestamp ≤ a.timestamp

instance : DecidableRel tsOrder := fun a b => inferInstanceAs (Decidable (b.timestamp ≤ a.timestamp))

instance : IsTotal Turn tsOrder := ⟨fun a b => le_total b.timestamp a.timestamp⟩

instance : IsTrans Turn tsOrder := ⟨fun _ _ _ h1 h2 => le_trans h2 h1⟩

/-- Order by position in the ANN id list
(`hnsw_memories.sort(key=lambda m: id_order[m.id])`). -/
def rankOrder (ids : List ℕ) : Turn → Turn → Prop :=
  fun a b => ids.indexOf a.id ≤ ids.indexOf b.id

instance (ids : List ℕ) : DecidableRel (rankOrder ids) :=
  fun a b => inferInstanceAs (Decidable (ids.indexOf a.id ≤ ids.indexOf b.id))

instance (ids : List ℕ) : IsTotal Turn (rankOrder ids) :=
  ⟨fun a b => le_total (ids.indexOf a.id) (ids.indexOf b.id)⟩

instance (ids : List ℕ) : IsTrans Turn (rankOrder ids) :=
  ⟨fun _ _ _ h1 h2 => le_trans h1 h2⟩

/-- Model of `SELECT id, prompt_text, answer_text FROM memory_text WHERE id
IN (...) AND session_id = ?` followed by the `by_id` dictionary lookup for a
single ANN id: the first row carrying that id and that session. Row ids are
unique (primary key), so `find?` is exact. -/
def lookupByIdSession (st : Store) (sid : String) (i : ℕ) : Option Turn :=
  st.find? (fun t => t.id == i && t.session_id == sid)

/-- Model of `ordered = [by_id[i] for i in ids if i in by_id]` in
`query_similar_by_embedding` (`src/ghostwire-controller.py`): materialize the
ANN ids in rank order, dropping ids with no row in this session. -/
def hnswOrdered (st : Store) (sid : String) (ids : List ℕ) : List Turn :=
  ids.filterMap (lookupByIdSession st sid)

/-- Scored rows of the controller cosine fallback: all rows of the session,
skipping NULL embedding blobs, paired with their cosine score against the
query. -/
def fallbackScored (s : ℚ → ℚ) (st : Store) (sid : String) (q : Vec) : List (ℚ × Turn) :=
  (st.filter (fun t => t.session_id == sid)).filterMap
    (fun t => t.embedding.map (fun e => (ctrlCosine s q e, t)))

/-- The controller cosine fallback: score the session rows, sort descending
by score (stable), take `limit`, project to `(prompt_text, answer_text)`. -/
def fallbackCosine (s : ℚ → ℚ) (st : Store) (sid : String) (q : Vec) (limit : ℕ) :
    List (String × String) :=
  (((fallbackScored s st sid q).insertionSort scoreOrder).take limit).map
    (fun p => (p.2.prompt_text, p.2.answer_text))

/-- Embedding of `query_similar_by_embedding` from
`src/ghostwire-controller.py` (identical in `src/LEGACY/ghostwire_controller.py`):
normalize the query, try the HNSW path (post-filtering by session and keeping
ANN rank order), and fall back to the in-process cosine scan when the index
is empty, the ANN query raised, the id list is empty, or no materialized row
survived the session filter. -/
def querySimilarCtrl (s : ℚ → ℚ) (st : Store) (ann : AnnOutcome) (sid : String)
    (q : Vec) (limit : ℕ) : List (String × String) :=
  let vec := ctrlNormalize s q
  match ann with
  | .ranked ids =>
    if ids.isEmpty then fallbackCosine s st sid vec limit
    else
      let ordered := hnswOrdered st sid ids
      if ordered.isEmpty then fallbackCosine s st sid vec limit
      else (ordered.take limit).map (fun t => (t.prompt_text, t.answer_text))
  | _ => fallbackCosine s st sid vec limit

/-- Embedding of `MemoryRepository.get_memories_by_session`
(`src/python/src/ghostwire/database/repositories.py`): session rows ordered
by timestamp descending, limited. -/
def getMemoriesBySession (st : Store) (sid : String) (limit : ℕ) : List Turn :=
  ((st.filter (fun t => t.session_id == sid)).insertionSort tsOrder).take limit

/-- Embedding of `MemoryRepository.query_similar_by_embedding`: score every
session row with the epsilon-guarded cosine (a NULL blob is modeled as the
empty vector; the Python would raise there, and this schema never writes
NULL), sort descending by score, take `limit`. -/
def repoQuerySimilar (s : ℚ → ℚ) (st : Store) (sid : String) (q : Vec) (limit : ℕ) :
    List Turn :=
  let scored := (st.filter (fun t => t.session_id == sid)).map
    (fun t => (repoCosine s q (t.embedding.getD []), t))
  ((scored.insertionSort scoreOrder).take limit).map (fun p => p.2)

/-- Embedding of `MemoryService.query_similar_memories`
(`src/python/ghostwire/services/memory_service.py`): normalize the query;
when the index is nonempty and `knn_query` returns a nonempty id list,
materialize up to 100 session rows, keep those whose id the ANN returned,
sort them by ANN rank, and return up to `limit` of them — even when that
list is empty. The repository cosine fallback runs only when the index is
empty, the id list is empty, or the ANN query raised. -/
def querySimilarService (s : ℚ → ℚ) (st : Store) (ann : AnnOutcome) (sid : String)
    (q : Vec) (limit : ℕ) : List Turn :=
  let nq := normalize_vector s q
  match ann with
  | .ranked ids =>
    if ids.isEmpty then repoQuerySimilar s st sid nq limit
    else
      let allMem := getMemoriesBySession st sid 100
      let hnswMem := allMem.filter (fun m => ids.contains m.id)
      (hnswMem.insertionSort (rankOrder ids)).take limit
  | _ => repoQuerySimilar s st sid nq limit

/-! Membership helper lemmas shared by the retrieval claims. -/

theorem mem_take_insertionSort {α : Type} {r : α → α → Prop} [DecidableRel r]
    {l : List α} {n : ℕ} {x : α} (h : x ∈ (l.insertionSort r).take n) : x ∈ l :=
  ((List.perm_insertionSort r l).mem_iff).1 ((List.take_sublist n _).subset h)

theorem mem_hnswOrdered {st : Store} {sid : String} {ids : List ℕ} {t : Turn}
    (h : t ∈ hnswOrdered st sid ids) : t ∈ st ∧ t.session_id = sid := by
  rcases List.mem_filterMap.1 h with ⟨i, _, hfind⟩
  have hmem := List.mem_of_find?_eq_some hfind
  have hp := List.find?_some hfind
  simp only [Bool.and_eq_true, beq_iff_eq] at hp
  exact ⟨hmem, hp.2⟩

theorem mem_fallbackScored {s : ℚ → ℚ} {st : Store} {sid : String} {q : Vec}
    {p : ℚ × Turn} (h : p ∈ fallbackScored s st sid q) :
    p.2 ∈ st ∧ p.2.session_id = sid := by
  rcases List.mem_filterMap.1 h with ⟨t, hmem, hmap⟩
  rcases Option.map_eq_some'.1 hmap with ⟨e, _, hpair⟩
  have hfil := List.mem_filter.1 hmem
  have hsid : t.session_id = sid := by simpa using hfil.2
  subst hpair
  exact ⟨hfil.1, hsid⟩

theorem mem_fallbackCosine {s : ℚ → ℚ} {st : Store} {sid : String} {q : Vec}
    {limit : ℕ} {pr : String × String} (h : pr ∈ fallbackCosine s st sid q limit) :
    ∃ t ∈ st, t.session_id = sid ∧ pr = (t.prompt_text, t.answer_text) := by
  rcases List.mem_map.1 h with ⟨p, hp, hpr⟩
  have := mem_fallbackScored (mem_take_insertionSort hp)
  exact ⟨p.2, this.1, this.2, hpr.symm⟩

theorem mem_getMemoriesBySession {st : Store} {sid : String} {limit : ℕ} {t : Turn}
    (h : t ∈ getMemoriesBySession st sid limit) : t ∈ st ∧ t.session_id = sid := by
  have hfil := List.mem_filter.1 (mem_take_insertionSort h)
  exact ⟨hfil.1, by simpa using hfil.2⟩

theorem mem_repoQuerySimilar {s : ℚ → ℚ} {st : Store} {sid : String} {q : Vec}
    {limit : ℕ} {t : Turn} (h : t ∈ repoQuerySimilar s st sid q limit) :
    t ∈ st ∧ t.session_id = sid := by
  rcases List.mem_map.1 h with ⟨p, hp, hpr⟩
  have hmem := mem_take_insertionSort hp
  rcases List.mem_map.1 hmem with ⟨u, hu, hpair⟩
  have hfil := List.mem_filter.1 hu
  have hsid : u.session_id = sid := by simpa using hfil.2
  subst hpr
  rw [← hpair]
  exact ⟨hfil.1, hsid⟩

theorem mem_querySimilarService {s : ℚ → ℚ} {st : Store} {ann : AnnOutcome}
    {sid : String} {q : Vec} {limit : ℕ} {t : Turn}
    (h : t ∈ querySimilarService s st ann sid q limit) :
    t ∈ st ∧ t.session_id = sid := by
  cases ann with
  | empty => exact mem_repoQuerySimilar h
  | failed => exact mem_repoQuerySimilar h
  | ranked ids =>
    simp only [querySimilarService] at h
    by_cases hids : ids.isEmpty
    · rw [if_pos hids] at h
      exact mem_repoQuerySimilar h
    · rw [if_neg hids] at h
      have hmem := mem_take_insertionSort h
      exact mem_getMemoriesBySession (List.mem_filter.1 hmem).1

theorem mem_querySimilarCtrl {s : ℚ → ℚ} {st : Store} {ann : AnnOutcome}
    {sid : String} {q : Vec} {limit : ℕ} {pr : String × String}
    (h : pr ∈ querySimilarCtrl s st ann sid q limit) :
    ∃ t ∈ st, t.session_id = sid ∧ pr = (t.prompt_text, t.answer_text) := by
  cases ann with
  | empty => exact mem_fallbackCosine h
  | failed => exact mem_fallbackCosine h
  | ranked ids =>
    simp only [querySimilarCtrl] at h
    by_cases hids : ids.isEmpty
    · rw [if_pos hids] at h
      exact mem_fallbackCosine h
    · rw [if_neg hids] at h
      by_cases hord : (hnswOrdered st sid ids).isEmpty
      · rw [if_pos hord] at h
        exact mem_fallbackCosine h
      · rw [if_neg hord] at h
        rcases List.mem_map.1 h with ⟨t, ht, hpr⟩
        have := mem_hnswOrdered ((List.take_sublist _ _).subset ht)
        exact ⟨t, this.1, this.2, hpr.symm⟩

/-- C1. Every turn surfaced by either retrieval implementation belongs to
the queried session: the HNSW path post-filters by session (SQL `AND
session_id = ?` in the controller, the session-scoped materialization in the
service) and the cosine fallback only scans rows of that session, for every
ANN outcome — including foreign-session or orphan ids in the index. -/
theorem C1_retrieval_session_scoped (s : ℚ → ℚ) (st : Store) (ann : AnnOutcome)
    (sid : String) (q : Vec) (limit : ℕ) :
    (∀ pr ∈ querySimilarCtrl s st ann sid q limit,
      ∃ t ∈ st, t.session_id = sid ∧ pr = (t.prompt_text, t.answer_text)) ∧
    (∀ m ∈ querySimilarService s st ann sid q limit, m ∈ st ∧ m.session_id = sid) :=
  ⟨fun _ h => mem_querySimilarCtrl h, fun _ h => mem_querySimilarService h⟩

/-- A two-session demonstration store: row 1 lives in session `a`, row 2 in
session `b`, with identical embeddings. -/
def demoStore : Store :=
  [⟨1, "a", "hello", "hi there", 10, some [1, 0]⟩,
   ⟨2, "b", "other", "reply", 11, some [1, 0]⟩]

/-- Witness for C1: with an ANN outcome ranking both ids — one of them
foreign — the controller returns exactly the session-`a` pair and the
service returns exactly the session-`a` row, and the theorem applies to
those members. -/
theorem C1_witness :
    (("hello", "hi there") ∈ querySimilarCtrl id demoStore (.ranked [2, 1]) "a" [1, 0] 5 ∧
      ∃ t ∈ demoStore, t.session_id = "a" ∧
        ("hello", "hi there") = (t.prompt_text, t.answer_text)) ∧
    ∀ m ∈ querySimilarService id demoStore (.ranked [2, 1]) "a" [1, 0] 5,
      m ∈ demoStore ∧ m.session_id = "a" := by
  refine ⟨⟨by decide, ?_⟩, ?_⟩
  · exact (C1_retrieval_session_scoped id demoStore (.ranked [2, 1]) "a" [1, 0] 5).1
      ("hello", "hi there") (by decide)
  · exact (C1_retrieval_session_scoped id demoStore (.ranked [2, 1]) "a" [1, 0] 5).2

/-! ## C5: rank order, fallback triggers, and the service short-circuit -/

theorem hnswOrdered_map_id_sublist (st : Store) (sid : String) (ids : List ℕ) :
    ((hnswOrdered st sid ids).map Turn.id).Sublist ids := by
  induction ids with
  | nil => simp [hnswOrdered]
  | cons i rest ih =>
    simp only [hnswOrdered, List.filterMap_cons] at *
    cases hfind : lookupByIdSession st sid i with
    | none => simpa [hfind] using ih.cons i
    | some t =>
      have hid : t.id = i := by
        have hp := List.find?_some hfind
        simp only [Bool.and_eq_true, beq_iff_eq] at hp
        exact hp.1
      simpa [hfind, hid] using ih.cons₂ i

/-- A store whose only session-`a` row has id 2, while the ANN outcome ranks
only the foreign id 1. -/
def c5Store : Store := [⟨2, "a", "p", "r", 1, some [1, 0]⟩]

/-- Counterexample to C5 as stated: the ANN query succeeds with a nonempty
id list none of whose ids belongs to session `a`, and
`MemoryService.query_similar_memories` returns the empty list instead of
falling back to the cosine scan, which would have returned the session row. -/
theorem C5_counterexample :
    querySimilarService id c5Store (.ranked [1]) "a" [1, 0] 5 = [] ∧
    repoQuerySimilar id c5Store "a" (normalize_vector id [1, 0]) 5 =
      [⟨2, "a", "p", "r", 1, some [1, 0]⟩] := by decide

/-- C5 (amended). Rank order is preserved after the session filter in both
implementations: the ids materialized by the controller form a sublist of
the ANN ranking, and the service output is pairwise ordered by ANN rank.
The controller falls back to the in-process cosine scan — the session rows
scored, sorted descending by cosine similarity (stably), truncated to the
limit — whenever the index was empty, the ANN query raised, the id list was
empty, or no materialized row survived the session filter. The service,
however, reaches its cosine fallback only when the index is empty, the id
list is empty, or the ANN query raised: an ANN success whose ids all lie
outside the session returns the empty list without falling back. -/
theorem C5_rank_order_and_fallback (s : ℚ → ℚ) (st : Store) (sid : String)
    (q : Vec) (limit : ℕ) (ids : List ℕ) :
    ((hnswOrdered st sid ids).map Turn.id).Sublist ids ∧
    (¬ ids.isEmpty → ¬ (hnswOrdered st sid ids).isEmpty →
      querySimilarCtrl s st (.ranked ids) sid q limit =
        ((hnswOrdered st sid ids).take limit).map
          (fun t => (t.prompt_text, t.answer_text))) ∧
    (¬ ids.isEmpty →
      List.Pairwise (rankOrder ids) (querySimilarService s st (.ranked ids) sid q limit)) ∧
    querySimilarCtrl s st .failed sid q limit =
      fallbackCosine s st sid (ctrlNormalize s q) limit ∧
    querySimilarCtrl s st .empty sid q limit =
      fallbackCosine s st sid (ctrlNormalize s q) limit ∧
    (ids.isEmpty ∨ (hnswOrdered st sid ids).isEmpty →
      querySimilarCtrl s st (.ranked ids) sid q limit =
        fallbackCosine s st sid (ctrlNormalize s q) limit) ∧
    List.Sorted scoreOrder
      ((fallbackScored s st sid (ctrlNormalize s q)).insertionSort scoreOrder) ∧
    (¬ ids.isEmpty →
      querySimilarService s st (.ranked ids) sid q limit =
        ((((getMemoriesBySession st sid 100).filter
            (fun m => ids.contains m.id)).insertionSort (rankOrder ids)).take limit)) := by
  refine ⟨hnswOrdered_map_id_sublist st sid ids, ?_, ?_, rfl, rfl, ?_, ?_, ?_⟩
  · intro hids hord
    simp only [querySimilarCtrl, if_neg hids, if_neg hord]
  · intro hids
    simp only [querySimilarService, if_neg hids]
    exact List.Pairwise.sublist (List.take_sublist _ _)
      (List.sorted_insertionSort (rankOrder ids) _)
  · intro h
    rcases h with h | h
    · simp only [querySimilarCtrl, if_pos h]
    · by_cases hids : ids.isEmpty
      · simp only [querySimilarCtrl, if_pos hids]
      · simp only [querySimilarCtrl, if_neg hids, if_pos h]
  · exact List.sorted_insertionSort scoreOrder _
  · intro hids
    simp only [querySimilarService, if_neg hids]

/-- Witness for C5 (amended) on the two-session demonstration store with a
mixed ANN ranking. -/
theorem C5_witness :
    (((hnswOrdered demoStore "a" [2, 1]).map Turn.id).Sublist [2, 1] ∧
      querySimilarCtrl id demoStore (.ranked [2, 1]) "a" [1, 0] 5 =
        ((hnswOrdered demoStore "a" [2, 1]).take 5).map
          (fun t => (t.prompt_text, t.answer_text)) ∧
      List.Pairwise (rankOrder [2, 1])
        (querySimilarService id demoStore (.ranked [2, 1]) "a" [1, 0] 5)) ∧
    querySimilarCtrl id demoStore (.ranked []) "a" [1, 0] 5 =
      fallbackCosine id demoStore "a" (ctrlNormalize id [1, 0]) 5 := by
  have h := C5_rank_order_and_fallback id demoStore "a" [1, 0] 5 [2, 1]
  have h0 := C5_rank_order_and_fallback id demoStore "a" [1, 0] 5 ([] : List ℕ)
  refine ⟨⟨h.1, h.2.1 (by decide) (by decide), h.2.2.1 (by decide)⟩, ?_⟩
  exact h0.2.2.2.2.2.1 (Or.inl (by decide))

/-! ## Collection surface and drop semantics (C2, C9) -/

/-- Mutable system state behind the collection surface: the `memory_text`
rows, the `dropped_collections` marker table, and the next AUTOINCREMENT
rowid. -/
structure SysState where
  rows : Store
  dropped : List String
  nextId : ℕ
deriving Repr, DecidableEq

/-- Row-store insert of `upsert_memory_with_embedding` /
`MemoryRepository.create_memory`: append a row carrying a fresh
AUTOINCREMENT id. -/
def insertTurn (st : SysState) (sid p a : String) (ts : ℚ) (e : Vec) : SysState :=
  { rows := st.rows ++ [⟨st.nextId, sid, p, a, ts, some e⟩],
    dropped := st.dropped,
    nextId := st.nextId + 1 }

/-- Embedding of `q_delete_collection` (`DELETE /collections/{name}`, both
controllers): delete every row of the session and record the name in the
dropped-collection marker set (`INSERT OR REPLACE`). -/
def dropCollection (st : SysState) (name : String) : SysState :=
  { rows := st.rows.filter (fun t => !(t.session_id == name)),
    dropped := if name ∈ st.dropped then st.dropped else name :: st.dropped,
    nextId := st.nextId }

/-- Embedding of `q_create_collection` (`PUT /collections/{name}`, both
controllers): first delete the dropped marker and commit, then validate the
requested vector size against `EMBED_DIM`, answering 400 on mismatch —
after the marker removal is already durable. Returns the optional HTTP
error code and the committed state. -/
def qCreateCollection (D : ℕ) (st : SysState) (name : String) (size : Option ℕ) :
    Option ℕ × SysState :=
  let st1 : SysState := { st with dropped := st.dropped.filter (fun n => !(n == name)) }
  if size ≠ some D then (some 400, st1) else (none, st1)

/-- Embedding of `q_get_collection_info` (`GET /collections/{name}`): 404
when the name is in the dropped marker set, otherwise the session row count. -/
def qGetCollectionInfo (st : SysState) (name : String) : Except ℕ ℕ :=
  if name ∈ st.dropped then .error 404
  else .ok (st.rows.filter (fun t => t.session_id == name)).length

/-- Operations that can follow a drop. -/
inductive Op
  | insert (sid p a : String) (ts : ℚ) (e : Vec)
  | drop (name : String)
  | create (name : String) (size : Option ℕ)

def applyOp (D : ℕ) (st : SysState) : Op → SysState
  | .insert sid p a ts e => insertTurn st sid p a ts e
  | .drop name => dropCollection st name
  | .create name size => (qCreateCollection D st name size).2

def runOps (D : ℕ) (st : SysState) : List Op → SysState
  | [] => st
  | op :: ops => runOps D (applyOp D st op) ops

/-- Every row id is below the AUTOINCREMENT counter. -/
def FreshIds (st : SysState) : Prop := ∀ t ∈ st.rows, t.id < st.nextId

/-- The invariant carried across post-drop operations: ids stay fresh, the
watermark `i` stays below the counter, and no session-`S` row carries id
`i`. -/
def GoneFrom (S : String) (i : ℕ) (st : SysState) : Prop :=
  FreshIds st ∧ i < st.nextId ∧ ∀ r ∈ st.rows, ¬(r.id = i ∧ r.session_id = S)

theorem goneFrom_applyOp {S : String} {i : ℕ} {st : SysState} (D : ℕ) (op : Op)
    (h : GoneFrom S i st) : GoneFrom S i (applyOp D st op) := by
  obtain ⟨hfresh, hlt, habs⟩ := h
  cases op with
  | insert sid p a ts e =>
    refine ⟨?_, Nat.lt_succ_of_lt hlt, ?_⟩
    · intro t ht
      rcases List.mem_append.1 ht with ht | ht
      · exact Nat.lt_succ_of_lt (hfresh t ht)
      · simp only [List.mem_singleton] at ht
        subst ht
        exact Nat.lt_succ_self _
    · intro r hr
      rcases List.mem_append.1 hr with hr | hr
      · exact habs r hr
      · simp only [List.mem_singleton] at hr
        subst hr
        intro hcon
        have hni : st.nextId = i := hcon.1
        exact absurd hni (Nat.ne_of_gt hlt)
  | drop name =>
    refine ⟨?_, hlt, ?_⟩
    · intro t ht
      exact hfresh t (List.mem_of_mem_filter ht)
    · intro r hr
      exact habs r (List.mem_of_mem_filter hr)
  | create name size =>
    have heq : applyOp D st (.create name size) =
        { st with dropped := st.dropped.filter (fun n => !(n == name)) } := by
      simp only [applyOp, qCreateCollection]
      by_cases h : size ≠ some D
      · rw [if_pos h]
      · rw [if_neg h]
    rw [heq]
    exact ⟨hfresh, hlt, habs⟩

theorem goneFrom_runOps {S : String} {i : ℕ} (D : ℕ) (ops : List Op) :
    ∀ st : SysState, GoneFrom S i st → GoneFrom S i (runOps D st ops) := by
  induction ops with
  | nil => exact fun st h => h
  | cons op ops ih => exact fun st h => ih _ (goneFrom_applyOp D op h)

/-- C2. Drop semantics: immediately after `DELETE /collections/{S}`, the
name sits in the dropped marker set so `GET /collections/{S}` answers 404;
and after any sequence of further inserts, drops, and collection creations,
no session-`S` row carries the id of a turn that session `S` held before
the drop — hence no retrieval against `S` (service or controller, any ANN
outcome including orphan ids) ever surfaces that pre-drop turn. -/
theorem C2_drop_semantics (D : ℕ) (st0 : SysState) (S : String) (tr : Turn)
    (hfresh : FreshIds st0) (hmem : tr ∈ st0.rows) (_hs : tr.session_id = S)
    (ops : List Op) (s : ℚ → ℚ) (ann : AnnOutcome) (q : Vec) (limit : ℕ) :
    qGetCollectionInfo (dropCollection st0 S) S = .error 404 ∧
    (∀ r ∈ (runOps D (dropCollection st0 S) ops).rows,
      ¬(r.id = tr.id ∧ r.session_id = S)) ∧
    (∀ m ∈ querySimilarService s (runOps D (dropCollection st0 S) ops).rows
        ann S q limit, m.id ≠ tr.id) ∧
    (∀ pr ∈ querySimilarCtrl s (runOps D (dropCollection st0 S) ops).rows
        ann S q limit,
      ∃ t ∈ (runOps D (dropCollection st0 S) ops).rows,
        t.id ≠ tr.id ∧ t.session_id = S ∧ pr = (t.prompt_text, t.answer_text)) := by
  have hgone0 : GoneFrom S tr.id (dropCollection st0 S) := by
    refine ⟨?_, hfresh tr hmem, ?_⟩
    · intro t ht
      exact hfresh t (List.mem_of_mem_filter ht)
    · intro r hr
      have hkeep := List.of_mem_filter hr
      intro hcon
      rw [hcon.2] at hkeep
      simp at hkeep
  have hgone := goneFrom_runOps D ops _ hgone0
  obtain ⟨_, _, habs⟩ := hgone
  have h404 : qGetCollectionInfo (dropCollection st0 S) S = .error 404 := by
    have : S ∈ (dropCollection st0 S).dropped := by
      simp only [dropCollection]
      by_cases h : S ∈ st0.dropped
      · simp [h]
      · simp [h]
    simp [qGetCollectionInfo, this]
  refine ⟨h404, habs, ?_, ?_⟩
  · intro m hm
    have hms := mem_querySimilarService hm
    intro hid
    exact habs m hms.1 ⟨hid, hms.2⟩
  · intro pr hpr
    rcases mem_querySimilarCtrl hpr with ⟨t, htmem, htsid, hteq⟩
    refine ⟨t, htmem, ?_, htsid, hteq⟩
    intro hid
    exact habs t htmem ⟨hid, htsid⟩

/-- Witness for C2: a store holding one turn of session `a` and one of
session `b`; drop `a`, insert a fresh turn into `a`, and query with an ANN
outcome still ranking the orphan id. -/
theorem C2_witness :
    qGetCollectionInfo
      (dropCollection ⟨demoStore, [], 3⟩ "a") "a" = .error 404 ∧
    ∀ m ∈ querySimilarService id
        (runOps 2 (dropCollection ⟨demoStore, [], 3⟩ "a")
          [.insert "a" "new" "ans" 12 [1, 0]]).rows
        (.ranked [1, 3]) "a" [1, 0] 5, m.id ≠ 1 := by
  have h := C2_drop_semantics 2 ⟨demoStore, [], 3⟩ "a"
    ⟨1, "a", "hello", "hi there", 10, some [1, 0]⟩
    (show ∀ t ∈ (⟨demoStore, [], 3⟩ : SysState).rows, t.id < 3 by decide)
    (by decide) rfl
    [.insert "a" "new" "ans" 12 [1, 0]] id (.ranked [1, 3]) [1, 0] 5
  exact ⟨h.1, h.2.2.1⟩

/-- C9. A `PUT /collections/{S}` carrying a mismatched vector size answers
400, but only after the dropped marker for `S` has been removed and
committed: a subsequent `GET /collections/{S}` no longer answers 404 and
reports an existing collection whose vector count is 0. -/
theorem C9_create_unmarks_despite_400 (D : ℕ) (st : SysState) (name : String)
    (size : Option ℕ) (_hdropped : name ∈ st.dropped)
    (hnorows : ∀ r ∈ st.rows, r.session_id ≠ name) (hsz : size ≠ some D) :
    (qCreateCollection D st name size).1 = some 400 ∧
    name ∉ ((qCreateCollection D st name size).2).dropped ∧
    qGetCollectionInfo (qCreateCollection D st name size).2 name = .ok 0 := by
  have hstate : (qCreateCollection D st name size).2 =
      { st with dropped := st.dropped.filter (fun n => !(n == name)) } := by
    simp only [qCreateCollection, if_pos hsz]
  have hnotin : name ∉ st.dropped.filter (fun n => !(n == name)) := by
    intro hmem
    have := List.of_mem_filter hmem
    simp at this
  have hcnt : (st.rows.filter (fun t => t.session_id == name)).length = 0 := by
    rw [List.length_eq_zero, List.filter_eq_nil_iff]
    intro r hr
    simpa using hnorows r hr
  refine ⟨by simp only [qCreateCollection, if_pos hsz], ?_, ?_⟩
  · rw [hstate]
    exact hnotin
  · rw [hstate]
    simp only [qGetCollectionInfo]
    rw [if_neg hnotin]
    simpa using hcnt

/-- Witness for C9: a freshly dropped empty collection `a`, re-created with
size 3 against `EMBED_DIM = 4`. -/
theorem C9_witness :
    (qCreateCollection 4 ⟨[], ["a"], 0⟩ "a" (some 3)).1 = some 400 ∧
    "a" ∉ ((qCreateCollection 4 ⟨[], ["a"], 0⟩ "a" (some 3)).2).dropped ∧
    qGetCollectionInfo (qCreateCollection 4 ⟨[], ["a"], 0⟩ "a" (some 3)).2 "a" = .ok 0 :=
  C9_create_unmarks_despite_400 4 ⟨[], ["a"], 0⟩ "a" (some 3)
    (by decide) (by intro r hr; cases hr) (by decide)

/-! ## Cache service (C4, C3) -/

/-- The SHA-256 cache key of the approximate cache is a hash of
`session_id : query : json(embedding)`; it is modeled by the hashed triple
itself (the hash is treated as injective). -/
abbrev CacheKey := String × String × Vec

/-- A row of the `cache` table (approximate store). -/
structure SimEntry where
  cache_key : CacheKey
  session_id : String
  query_embedding : Vec
  response : String
  context : Option String
  similarity_threshold : Option ℚ
  created_at : ℚ
  expires_at : ℚ
deriving Repr, DecidableEq

/-- Model of `DELETE FROM cache WHERE expires_at < now`. -/
def purgeSim (now : ℚ) (tbl : List SimEntry) : List SimEntry :=
  tbl.filter (fun e => !(decide (e.expires_at < now)))

/-- Descending-by-created_at order of `ORDER BY created_at DESC`. -/
def createdOrder : SimEntry → SimEntry → Prop := fun a b => b.created_at ≤ a.created_at

instance : DecidableRel createdOrder :=
  fun a b => inferInstanceAs (Decidable (b.created_at ≤ a.created_at))

instance : IsTotal SimEntry createdOrder := ⟨fun a b => le_total b.created_at a.created_at⟩

instance : IsTrans SimEntry createdOrder := ⟨fun _ _ _ h1 h2 => le_trans h2 h1⟩

/-- The similarity scan rows: `SELECT ... WHERE session_id = ? AND
expires_at > ? ORDER BY created_at DESC LIMIT 100`. -/
def simScan (tbl : List SimEntry) (now : ℚ) (session : String) : List SimEntry :=
  (((tbl.filter (fun e => e.session_id == session && decide (now < e.expires_at)))
    ).insertionSort createdOrder).take 100

/-- The threshold the scan actually compares against:
`row[4] if row[4] is not None else similarity_threshold` — the stored
per-entry threshold when present, otherwise the caller-supplied parameter
(not the maximum of the two). -/
def effThreshold (minThreshold : ℚ) (e : SimEntry) : ℚ :=
  e.similarity_threshold.getD minThreshold

/-- Embedding of `CacheService.get_cached_response`
(`src/python/ghostwire/services/cache_service.py`): purge expired rows, try
the exact cache-key match, then scan the session rows most-recent-first and
return the first whose similarity reaches its effective threshold. Returns
the matched row (the Python projects it to `{response, context, ...}`) and
the table after the purge. -/
def get_cached_response (s : ℚ → ℚ) (tbl : List SimEntry) (now : ℚ)
    (session query : String) (qe : Vec) (minThreshold : ℚ) :
    Option SimEntry × List SimEntry :=
  let tbl1 := purgeSim now tbl
  let key : CacheKey := (session, query, qe)
  match tbl1.find? (fun e => e.cache_key == key && decide (now < e.expires_at)) with
  | some e => (some e, tbl1)
  | none =>
    ((simScan tbl1 now session).find?
      (fun e => decide (effThreshold minThreshold e ≤ calcSimilarity s qe e.query_embedding)),
     tbl1)

/-- A cache row stored with a threshold of 1/2, keyed on a different query
text than the lookup will use; its stored vector is `[4, 3]`. -/
def c4Entry : SimEntry :=
  ⟨("s", "other", [4, 3]), "s", [4, 3], "cached", none, some (1/2), 0, 100⟩

/-- A square-root model that is exact on the values the demonstrations
need (the square roots of 25 and of 1), so the cosines computed below are
the true cosines of the vectors involved. -/
def demoSqrt (x : ℚ) : ℚ := if x = 25 then 5 else if x = 1 then 1 else 0

/-- Counterexample to C4 as stated: with caller minimum `9/10`, the lookup
returns the stored entry although the cosine similarity (4/5, the true
cosine between the query vector and the stored vector) is below
`max(9/10, 1/2)` — the code compares against the stored threshold alone,
not the maximum of it and the caller-supplied minimum. -/
theorem C4_counterexample :
    (get_cached_response demoSqrt [c4Entry] 1 "s" "q" [1, 0] (9/10)).1 = some c4Entry ∧
    calcSimilarity demoSqrt [1, 0] c4Entry.query_embedding <
      max (9/10) (c4Entry.similarity_threshold.getD (9/10)) := by
  have hsim : calcSimilarity demoSqrt [1, 0] c4Entry.query_embedding = 4/5 := by
    simp only [calcSimilarity, normSq, dot, c4Entry, demoSqrt]
    norm_num
  have hpred : (decide (effThreshold (9/10) c4Entry ≤
      calcSimilarity demoSqrt [1, 0] c4Entry.query_embedding)) = true := by
    rw [decide_eq_true_eq, hsim]
    simp only [effThreshold, c4Entry]
    norm_num
  constructor
  · have h1 : (c4Entry.cache_key == (("s", "q", ([1, 0] : Vec)) : CacheKey)) = false := by
      decide
    have h2 : (decide (c4Entry.expires_at < (1 : ℚ))) = false := by decide
    have h3 : (c4Entry.session_id == "s") = true := by decide
    have h4 : (decide ((1 : ℚ) < c4Entry.expires_at)) = true := by decide
    have h5 : List.take 100 [c4Entry] = [c4Entry] :=
      List.take_of_length_le (by simp)
    simp only [get_cached_response, purgeSim, simScan, List.filter, List.find?,
      List.insertionSort, List.orderedInsert, h1, h2, h3, h4, h5, hpred,
      Bool.not_false, Bool.and_true, Bool.true_and, Bool.false_and]
  · rw [hsim]
    simp only [c4Entry]
    norm_num

theorem find?_decomp {α : Type} {p : α → Bool} {l : List α} {b : α}
    (h : l.find? p = some b) :
    ∃ pre post, l = pre ++ b :: post ∧ ∀ a ∈ pre, p a = false := by
  induction l with
  | nil => cases h
  | cons x xs ih =>
    by_cases hx : p x = true
    · rw [List.find?_cons_of_pos _ hx] at h
      cases h
      exact ⟨[], xs, rfl, by simp⟩
    · rw [List.find?_cons_of_neg _ hx] at h
      rcases ih h with ⟨pre, post, heq, hpre⟩
      refine ⟨x :: pre, post, by rw [heq, List.cons_append], ?_⟩
      intro a ha
      rcases List.mem_cons.1 ha with rfl | ha
      · exact Bool.eq_false_iff.mpr hx
      · exact hpre a ha

/-- C4 (amended). When the exact cache-key probe misses and the scan
branch answers, the returned entry is an unexpired entry of the queried
session, reached within the most-recent-100 scan, whose similarity is at
least its effective threshold — the stored per-entry threshold when
present, else the caller minimum (not the maximum of the two) — and it is
the first entry of the scan order satisfying that test. -/
theorem C4_first_hit_uses_stored_threshold (s : ℚ → ℚ) (tbl : List SimEntry)
    (now : ℚ) (session query : String) (qe : Vec) (m : ℚ) (e : SimEntry)
    (hexact : (purgeSim now tbl).find?
      (fun e => e.cache_key == ((session, query, qe) : CacheKey) &&
        decide (now < e.expires_at)) = none)
    (h : (get_cached_response s tbl now session query qe m).1 = some e) :
    e ∈ simScan (purgeSim now tbl) now session ∧
    e.session_id = session ∧ now < e.expires_at ∧
    effThreshold m e ≤ calcSimilarity s qe e.query_embedding ∧
    ∃ pre post, simScan (purgeSim now tbl) now session = pre ++ e :: post ∧
      ∀ e2 ∈ pre, calcSimilarity s qe e2.query_embedding < effThreshold m e2 := by
  simp only [get_cached_response, hexact] at h
  have hmem := List.mem_of_find?_eq_some h
  have hpred := List.find?_some h
  have hsim : effThreshold m e ≤ calcSimilarity s qe e.query_embedding := by
    simpa using hpred
  have hscan : e.session_id = session ∧ now < e.expires_at := by
    have hfil := List.mem_filter.1 (mem_take_insertionSort hmem)
    have := hfil.2
    simp only [Bool.and_eq_true, beq_iff_eq, decide_eq_true_eq] at this
    exact this
  rcases find?_decomp h with ⟨pre, post, heq, hpre⟩
  refine ⟨hmem, hscan.1, hscan.2, hsim, pre, post, heq, ?_⟩
  intro e2 he2
  have := hpre e2 he2
  simp only [decide_eq_false_iff_not, not_le] at this
  exact this

/-- Witness for C4 (amended): the lookup of the counterexample state, where
the scan hit is the stored entry itself. -/
theorem C4_witness :
    c4Entry ∈ simScan (purgeSim 1 [c4Entry]) 1 "s" ∧
    effThreshold (9/10) c4Entry ≤ calcSimilarity demoSqrt [1, 0] c4Entry.query_embedding := by
  have hsim : calcSimilarity demoSqrt [1, 0] c4Entry.query_embedding = 4/5 := by
    simp only [calcSimilarity, normSq, dot, c4Entry, demoSqrt]
    norm_num
  have hpred : (decide (effThreshold (9/10) c4Entry ≤
      calcSimilarity demoSqrt [1, 0] c4Entry.query_embedding)) = true := by
    rw [decide_eq_true_eq, hsim]
    simp only [effThreshold, c4Entry]
    norm_num
  have hres : (get_cached_response demoSqrt [c4Entry] 1 "s" "q" [1, 0] (9/10)).1 =
      some c4Entry := by
    have h1 : (c4Entry.cache_key == (("s", "q", ([1, 0] : Vec)) : CacheKey)) = false := by
      decide
    have h2 : (decide (c4Entry.expires_at < (1 : ℚ))) = false := by decide
    have h3 : (c4Entry.session_id == "s") = true := by decide
    have h4 : (decide ((1 : ℚ) < c4Entry.expires_at)) = true := by decide
    have h5 : List.take 100 [c4Entry] = [c4Entry] :=
      List.take_of_length_le (by simp)
    simp only [get_cached_response, purgeSim, simScan, List.filter, List.find?,
      List.insertionSort, List.orderedInsert, h1, h2, h3, h4, h5, hpred,
      Bool.not_false, Bool.and_true, Bool.true_and, Bool.false_and]
  have h := C4_first_hit_uses_stored_threshold demoSqrt [c4Entry] 1 "s" "q" [1, 0]
    (9/10) c4Entry (by decide) hres
  exact ⟨h.1, h.2.2.2.1⟩

/-! ## Exact response cache and the RAG pipeline (C3) -/

/-- A row of the `exact_response_cache` table. -/
structure ExactEntry where
  session_id : String
  query : String
  response : String
  context : Option String
  created_at : ℚ
  expires_at : ℚ
deriving Repr, DecidableEq

/-- Model of `DELETE FROM exact_response_cache WHERE expires_at < now`. -/
def purgeExact (now : ℚ) (tbl : List ExactEntry) : List ExactEntry :=
  tbl.filter (fun e => !(decide (e.expires_at < now)))

/-- Embedding of `CacheService.get_exact_response`: purge expired rows,
then `SELECT ... WHERE session_id = ? AND query = ? AND expires_at > ?`
(the `UNIQUE(session_id, query)` constraint makes the first match the only
one). Returns the hit and the purged table. -/
def get_exact_response (tbl : List ExactEntry) (now : ℚ) (session query : String) :
    Option ExactEntry × List ExactEntry :=
  let tbl1 := purgeExact now tbl
  (tbl1.find? (fun e => e.session_id == session &&
    (e.query == query && decide (now < e.expires_at))), tbl1)

/-- Exact-cache TTL: `ttl_minutes = 120`, in seconds. -/
def exactTTL : ℚ := 7200

/-- Approximate-cache TTL: `ttl_minutes = 60`, in seconds. -/
def simTTL : ℚ := 3600

/-- Embedding of `CacheService.cache_exact_response` (`INSERT OR REPLACE`
under `UNIQUE(session_id, query)`): drop any previous row of this key, add
the fresh row stamped with the exact-cache TTL. -/
def cache_exact_response (tbl : List ExactEntry) (now : ℚ)
    (session query response : String) (context : Option String) : List ExactEntry :=
  tbl.filter (fun e => !(e.session_id == session && e.query == query)) ++
    [⟨session, query, response, context, now, now + exactTTL⟩]

/-- Embedding of `CacheService.cache_response` (`INSERT OR REPLACE` on the
unique `cache_key`). -/
def cache_response (tbl : List SimEntry) (now : ℚ) (session query : String)
    (qe : Vec) (response : String) (context : Option String) (threshold : ℚ) :
    List SimEntry :=
  let key : CacheKey := (session, query, qe)
  tbl.filter (fun e => !(e.cache_key == key)) ++
    [⟨key, session, qe, response, context, some threshold, now, now + simTTL⟩]

/-- State of the two cache tables. -/
structure RagState where
  exact : List ExactEntry
  sim : List SimEntry
deriving Repr, DecidableEq

/-- External collaborators of `RAGService.rag_query`: the embedding service
(`embed_text`), the upstream generator (assembled prompt to completed
response), and the retrieval plus context-optimization stage abbreviated to
the context text it produces for a session and query. -/
structure RagEnv where
  embed : String → Vec
  gen : String → String
  contextFor : String → String → String

/-- Embedding of `RAGService.rag_query`
(`src/python/ghostwire/services/rag_service.py`): embed the query (caching
is disabled when that yields an empty vector); probe the exact cache, then
the similarity cache, answering a hit from the store with zero generation
calls; on a miss, compose the prompt, call the generator once, and write
both caches. Returns the concatenated client output, the number of
upstream generation calls, and the cache state after the call. -/
def ragQuery (env : RagEnv) (s : ℚ → ℚ) (st : RagState) (now : ℚ)
    (session query : String) (thr : ℚ) : String × ℕ × RagState :=
  let qe := env.embed query
  if qe.isEmpty then
    let fullPrompt := env.contextFor session query ++ "User: " ++ query ++ "\n\nAssistant:"
    (env.gen fullPrompt, 1, st)
  else
    let ex := get_exact_response st.exact now session query
    match ex.1 with
    | some e => (e.response, 0, ⟨ex.2, st.sim⟩)
    | none =>
      let sim := get_cached_response s st.sim now session query qe thr
      match sim.1 with
      | some e => (e.response, 0, ⟨ex.2, sim.2⟩)
      | none =>
        let contextText := env.contextFor session query
        let fullPrompt := contextText ++ "User: " ++ query ++ "\n\nAssistant:"
        let response := env.gen fullPrompt
        let ctx : Option String := if contextText == "" then none else some contextText
        (response, 1,
         ⟨cache_exact_response ex.2 now session query response ctx,
          cache_response sim.2 now session query qe response ctx thr⟩)

theorem get_exact_response_snd (tbl : List ExactEntry) (now : ℚ)
    (session query : String) :
    (get_exact_response tbl now session query).2 = purgeExact now tbl := rfl

theorem get_cached_response_snd (s : ℚ → ℚ) (tbl : List SimEntry) (now : ℚ)
    (session query : String) (qe : Vec) (thr : ℚ) :
    (get_cached_response s tbl now session query qe thr).2 = purgeSim now tbl := by
  unfold get_cached_response
  cases h : (purgeSim now tbl).find? (fun e =>
      e.cache_key == ((session, query, qe) : CacheKey) && decide (now < e.expires_at)) <;>
    simp [h]

theorem find?_append_none {α : Type} {p : α → Bool} {l1 l2 : List α}
    (h : l1.find? p = none) : (l1 ++ l2).find? p = l2.find? p := by
  induction l1 with
  | nil => simp
  | cons x xs ih =>
    by_cases hx : p x = true
    · rw [List.find?_cons_of_pos _ hx] at h
      cases h
    · rw [List.find?_cons_of_neg _ hx] at h
      rw [List.cons_append, List.find?_cons_of_neg _ hx]
      exact ih h

/-- Reading back the exact cache right after a write: within the TTL the
freshly written row is found, whatever the rest of the table holds. -/
theorem get_exact_after_put (tbl : List ExactEntry) (now1 now2 : ℚ)
    (session query response : String) (ctx : Option String)
    (httl : now2 < now1 + exactTTL) :
    (get_exact_response (cache_exact_response tbl now1 session query response ctx)
      now2 session query).1 =
      some ⟨session, query, response, ctx, now1, now1 + exactTTL⟩ := by
  have hnlt : ¬(now1 + exactTTL < now2) := lt_asymm httl
  show ((purgeExact now2 (cache_exact_response tbl now1 session query response ctx)).find?
    (fun e => e.session_id == session &&
      (e.query == query && decide (now2 < e.expires_at)))) = _
  unfold cache_exact_response purgeExact
  rw [List.filter_append]
  have hsurv : List.filter (fun e => !(decide (e.expires_at < now2)))
      [(⟨session, query, response, ctx, now1, now1 + exactTTL⟩ : ExactEntry)] =
      [⟨session, query, response, ctx, now1, now1 + exactTTL⟩] := by
    simp [hnlt]
  rw [hsurv]
  have hnone : (List.filter (fun e => !(decide (e.expires_at < now2)))
      (List.filter (fun e => !(e.session_id == session && e.query == query)) tbl)).find?
      (fun e => e.session_id == session &&
        (e.query == query && decide (now2 < e.expires_at))) = none := by
    rw [List.find?_eq_none]
    intro a ha
    have h1 : a ∈ List.filter (fun e => !(e.session_id == session && e.query == query)) tbl :=
      (List.mem_filter.1 ha).1
    have hkey : (!(a.session_id == session && a.query == query)) = true :=
      (List.mem_filter.1 h1).2
    cases hs : a.session_id == session <;> cases hq : a.query == query <;>
      simp_all
  rw [find?_append_none hnone]
  have hpred : ((⟨session, query, response, ctx, now1, now1 + exactTTL⟩ : ExactEntry).session_id
      == session &&
      ((⟨session, query, response, ctx, now1, now1 + exactTTL⟩ : ExactEntry).query == query &&
        decide (now2 < (⟨session, query, response, ctx, now1, now1 + exactTTL⟩ :
          ExactEntry).expires_at))) = true := by
    simp [httl]
  exact List.find?_cons_of_pos _ hpred

/-- First call on a double cache miss: one generation call, both caches
written. -/
theorem ragQuery_double_miss (env : RagEnv) (s : ℚ → ℚ) (st : RagState) (now : ℚ)
    (session query : String) (thr : ℚ)
    (hqe : (env.embed query).isEmpty = false)
    (hmiss1 : (get_exact_response st.exact now session query).1 = none)
    (hmiss2 : (get_cached_response s st.sim now session query
      (env.embed query) thr).1 = none) :
    ragQuery env s st now session query thr =
      (env.gen (env.contextFor session query ++ "User: " ++ query ++ "\n\nAssistant:"), 1,
       ⟨cache_exact_response (purgeExact now st.exact) now session query
          (env.gen (env.contextFor session query ++ "User: " ++ query ++ "\n\nAssistant:"))
          (if env.contextFor session query == "" then none
           else some (env.contextFor session query)),
        cache_response (purgeSim now st.sim) now session query (env.embed query)
          (env.gen (env.contextFor session query ++ "User: " ++ query ++ "\n\nAssistant:"))
          (if env.contextFor session query == "" then none
           else some (env.contextFor session query)) thr⟩) := by
  simp only [ragQuery, hqe, Bool.false_eq_true, if_false, hmiss1, hmiss2,
    get_exact_response_snd, get_cached_response_snd]

/-- A call whose exact-cache probe hits: the stored response is replayed
with zero generation calls and only the purge changes state. -/
theorem ragQuery_exact_hit (env : RagEnv) (s : ℚ → ℚ) (st : RagState) (now : ℚ)
    (session query : String) (thr : ℚ) (e : ExactEntry)
    (hqe : (env.embed query).isEmpty = false)
    (hhit : (get_exact_response st.exact now session query).1 = some e) :
    ragQuery env s st now session query thr =
      (e.response, 0, ⟨purgeExact now st.exact, st.sim⟩) := by
  simp only [ragQuery, hqe, Bool.false_eq_true, if_false, hhit, get_exact_response_snd]

/-- C3 (amended). For the `rag_query` pipeline behind the packaged
application’s `POST /chat_embedding`: when a query whose embedding call
yields a nonempty vector misses both caches, the call makes exactly one
upstream generation call, and a repeat of the identical request within the
exact-cache TTL returns the byte-identical concatenated response with zero
upstream generation calls, answered from the exact cache. The standalone
controllers’ own `/chat_embedding` endpoint has no cache at all and issues
one generation call on every request (see the counterexample). -/
theorem C3_repeat_hits_exact_cache (env : RagEnv) (s : ℚ → ℚ) (st0 : RagState)
    (now1 now2 : ℚ) (session query : String) (thr : ℚ)
    (hqe : (env.embed query).isEmpty = false)
    (hmiss1 : (get_exact_response st0.exact now1 session query).1 = none)
    (hmiss2 : (get_cached_response s st0.sim now1 session query
      (env.embed query) thr).1 = none)
    (httl : now2 < now1 + exactTTL) :
    (ragQuery env s st0 now1 session query thr).2.1 = 1 ∧
    (ragQuery env s (ragQuery env s st0 now1 session query thr).2.2
        now2 session query thr).1 =
      (ragQuery env s st0 now1 session query thr).1 ∧
    (ragQuery env s (ragQuery env s st0 now1 session query thr).2.2
        now2 session query thr).2.1 = 0 := by
  have hr1 := ragQuery_double_miss env s st0 now1 session query thr hqe hmiss1 hmiss2
  have hfind := get_exact_after_put (purgeExact now1 st0.exact) now1 now2 session query
    (env.gen (env.contextFor session query ++ "User: " ++ query ++ "\n\nAssistant:"))
    (if env.contextFor session query == "" then none
     else some (env.contextFor session query)) httl
  have hr2 := ragQuery_exact_hit env s
    ⟨cache_exact_response (purgeExact now1 st0.exact) now1 session query
        (env.gen (env.contextFor session query ++ "User: " ++ query ++ "\n\nAssistant:"))
        (if env.contextFor session query == "" then none
         else some (env.contextFor session query)),
     cache_response (purgeSim now1 st0.sim) now1 session query (env.embed query)
        (env.gen (env.contextFor session query ++ "User: " ++ query ++ "\n\nAssistant:"))
        (if env.contextFor session query == "" then none
         else some (env.contextFor session query)) thr⟩
    now2 session query thr
    ⟨session, query,
     env.gen (env.contextFor session query ++ "User: " ++ query ++ "\n\nAssistant:"),
     (if env.contextFor session query == "" then none
      else some (env.contextFor session query)), now1, now1 + exactTTL⟩
    hqe hfind
  rw [hr1]
  dsimp only
  rw [hr2]
  refine ⟨rfl, ?_, ?_⟩ <;> dsimp only

/-- Embedding of `ask_streaming_with_embedding` plus its memory write — the
pipeline behind the standalone controllers' `POST /chat_embedding`
(`src/ghostwire-controller.py`, `src/LEGACY/ghostwire_controller.py`):
retrieve, compose the prompt, stream one generation call, persist the turn.
No response cache exists on this path. -/
def legacyAskStream (gen : String → String) (s : ℚ → ℚ) (st : SysState)
    (ann : AnnOutcome) (sid text : String) (emb : Vec) (now : ℚ) :
    String × ℕ × SysState :=
  let memories := querySimilarCtrl s st.rows ann sid emb 5
  let contextText :=
    if memories.isEmpty then ""
    else "Relevant prior notes: " ++
      String.intercalate " | " ((memories.take 3).map (fun p => p.1)) ++ "\n\n"
  let fullPrompt := contextText ++ "User: " ++ text ++ "\n\nAssistant:"
  let answer := gen fullPrompt
  (answer, 1, insertTurn st sid text answer now (ctrlNormalize s emb))

/-- Counterexample to C3 as stated for the standalone controllers: the
identical `POST /chat_embedding` repeated immediately performs one upstream
generation call again (the claim requires zero for the second request). -/
theorem C3_counterexample :
    (legacyAskStream (fun _ => "hi there") id ⟨[], [], 0⟩ .empty "s" "hello"
      [1, 0] 0).2.1 = 1 ∧
    (legacyAskStream (fun _ => "hi there") id
      (legacyAskStream (fun _ => "hi there") id ⟨[], [], 0⟩ .empty "s" "hello"
        [1, 0] 0).2.2
      .empty "s" "hello" [1, 0] 1).2.1 = 1 :=
  ⟨rfl, rfl⟩

/-- A concrete environment for the witness: constant embedding, constant
generator, empty retrieved context. -/
def c3Env : RagEnv := ⟨fun _ => [1, 0], fun _ => "hi there", fun _ _ => ""⟩

/-- Witness for C3 (amended): a cold cache, a first call at time 0 and the
identical call at time 10, within the 7200-second exact TTL. -/
theorem C3_witness :
    (ragQuery c3Env demoSqrt ⟨[], []⟩ 0 "s" "hello" (9/10)).2.1 = 1 ∧
    (ragQuery c3Env demoSqrt (ragQuery c3Env demoSqrt ⟨[], []⟩ 0 "s" "hello" (9/10)).2.2
        10 "s" "hello" (9/10)).1 =
      (ragQuery c3Env demoSqrt ⟨[], []⟩ 0 "s" "hello" (9/10)).1 ∧
    (ragQuery c3Env demoSqrt (ragQuery c3Env demoSqrt ⟨[], []⟩ 0 "s" "hello" (9/10)).2.2
        10 "s" "hello" (9/10)).2.1 = 0 :=
  C3_repeat_hits_exact_cache c3Env demoSqrt ⟨[], []⟩ 0 10 "s" "hello" (9/10)
    (by decide) rfl rfl (by norm_num [exactTTL])

/-! ## Context override handling in chat_embedding (C7) -/

/-- Model of the Python `str.strip()`: drop leading and trailing
whitespace. -/
def stripStr (s : String) : String :=
  String.mk (((s.toList.dropWhile Char.isWhitespace).reverse.dropWhile
    Char.isWhitespace).reverse)

/-- The request body of the legacy `POST /chat_embedding`
(`ChatEmbeddingRequest` in `src/LEGACY/ghostwire_controller.py`). -/
structure ChatReq where
  session_id : String
  text : Option String
  prompt_text : Option String
  embedding : Option Vec
  context : Option String
deriving Repr, DecidableEq

/-- Python `a or b` on an optional string: `b` when `a` is `None` or empty. -/
def pyOrStr (a : Option String) (b : String) : String :=
  match a with
  | some s => if s = "" then b else s
  | none => b

/-- `self.text or self.prompt_text or ""` from
`ChatEmbeddingRequest.normalized`. -/
def chatTextOf (r : ChatReq) : String :=
  pyOrStr r.text (pyOrStr r.prompt_text "")

/-- The two strings the legacy `chat_embedding` endpoint derives: first the
string handed to `ollama_embed` when no embedding was supplied (computed
before the context merge), then the text used for prompt composition (the
merge `f"{context.strip()}\n\nQuestion: {text.strip()}"`, applied only when
the override is a nonempty string). -/
def chatEmbeddingStrings (r : ChatReq) : String × String :=
  let text := chatTextOf r
  let embedded := text
  let merged :=
    match r.context with
    | some c => if c ≠ "" then stripStr c ++ "\n\nQuestion: " ++ stripStr text else text
    | none => text
  (embedded, merged)

/-- Counterexample to C7 as stated: with override `CTX` and text `hello`,
neither the embedded string nor the composed string equals the verbatim
prepending `CTXhello`; the embedded string is the text alone (the override
is merged only after embedding acquisition), and the composed string
carries the inserted framing `\n\nQuestion: `. -/
theorem C7_counterexample :
    ((chatEmbeddingStrings ⟨"s", some "hello", none, none, some "CTX"⟩).1 ≠
        "CTX" ++ "hello" ∧
      (chatEmbeddingStrings ⟨"s", some "hello", none, none, some "CTX"⟩).2 ≠
        "CTX" ++ "hello") ∧
    chatEmbeddingStrings ⟨"s", some "hello", none, none, some "CTX"⟩ =
      ("hello", "CTX\n\nQuestion: hello") := by decide

/-- C7 (amended). When a nonempty context override is supplied, the string
embedded (when no embedding was given) is the request text alone — the
override is applied after embedding acquisition — and the prompt
composition uses the stripped override, the literal `\n\nQuestion: `
framing, then the stripped text. -/
theorem C7_context_merge_shape (r : ChatReq) (c : String)
    (hc : r.context = some c) (hne : c ≠ "") :
    (chatEmbeddingStrings r).1 = chatTextOf r ∧
    (chatEmbeddingStrings r).2 =
      stripStr c ++ "\n\nQuestion: " ++ stripStr (chatTextOf r) := by
  unfold chatEmbeddingStrings
  rw [hc]
  simp [hne]

/-- Witness for C7 (amended) at a request whose override and text carry the
surrounding whitespace that the merge strips. -/
theorem C7_witness :
    (chatEmbeddingStrings ⟨"s", some " hello ", none, none, some " CTX "⟩).1 =
      chatTextOf ⟨"s", some " hello ", none, none, some " CTX "⟩ ∧
    (chatEmbeddingStrings ⟨"s", some " hello ", none, none, some " CTX "⟩).2 =
      stripStr " CTX " ++ "\n\nQuestion: " ++
        stripStr (chatTextOf ⟨"s", some " hello ", none, none, some " CTX "⟩) :=
  C7_context_merge_shape ⟨"s", some " hello ", none, none, some " CTX "⟩ " CTX "
    rfl (by decide)

/-! ## Embedding sanitization (C6) -/

/-- A raw component of an upstream embedding payload: a finite number, or
anything else (NaN, infinity, a non-number) that the sanitizer replaces. -/
inductive PyVal
  | fin (q : ℚ)
  | nonfin
deriving Repr, DecidableEq

/-- The per-component sanitization of `EmbeddingService.create_embedding`:
`float(x) if isinstance(x, (float, int)) and math.isfinite(x) else 1e-8`. -/
def sanitizeComponent : PyVal → ℚ
  | .fin q => q
  | .nonfin => eps8

/-- The per-input pipeline of `EmbeddingService.create_embedding`
(`src/python/ghostwire/services/embedding_service.py`, lines 122-144) after
the provider scan: empty scan result falls back to the uniform `1e-8`
vector; the length is adjusted to `D` by right-padding with `1e-8` or
truncating; components are sanitized; and a vector whose L1 norm is below
`1e-12` is replaced by the uniform `1e-8` vector of the same length. -/
def sanitizePipeline (D : ℕ) (api : List PyVal) : List ℚ :=
  let base := if api.isEmpty then List.replicate D (PyVal.fin eps8) else api
  let sized :=
    if base.length < D then base ++ List.replicate (D - base.length) (PyVal.fin eps8)
    else base.take D
  let vec := sized.map sanitizeComponent
  if l1 vec < eps12 then List.replicate vec.length eps8 else vec

/-- Embedding of `EmbeddingService.embed_text` (lines 162-177): empty text
yields the all-zero vector, and a failed API call also yields the all-zero
vector — with no sanitization of a successful payload. -/
def embed_text (D : ℕ) (text : String) (api : List ℚ) : List ℚ :=
  if text = "" then List.replicate D 0
  else if api.isEmpty then List.replicate D 0 else api

theorem l1_replicate (n : ℕ) (q : ℚ) : l1 (List.replicate n q) = n * |q| := by
  induction n with
  | zero => simp [l1]
  | succ k ih =>
    simp only [List.replicate_succ, l1, List.map_cons, List.sum_cons] at *
    rw [ih]
    push_cast
    ring

theorem l1_nonneg (v : Vec) : 0 ≤ l1 v := by
  induction v with
  | nil => simp [l1]
  | cons a as ih =>
    simp only [l1, List.map_cons, List.sum_cons] at *
    exact add_nonneg (abs_nonneg a) ih

/-- Counterexample to C6 as stated: the sanitized vector
`[3e-12, 0, 0, 0]` (D = 4) passes the all-zero guard yet has L1 norm far
below `ε × D` for the code epsilon `1e-8` (and below `1e-12 × 4` as
well); and `embed_text` returns the all-zero vector — not a vector of
epsilons — when its chosen model yields nothing. -/
theorem C6_counterexample :
    sanitizePipeline 4 [.fin (3/1000000000000), .fin 0, .fin 0, .fin 0] =
      [3/1000000000000, 0, 0, 0] ∧
    l1 (sanitizePipeline 4 [.fin (3/1000000000000), .fin 0, .fin 0, .fin 0]) <
      eps8 * 4 ∧
    embed_text 4 "hello" [] = [0, 0, 0, 0] ∧
    l1 (embed_text 4 "hello" []) = 0 := by
  have hl1 : l1 ([3/1000000000000, 0, 0, 0] : Vec) = 3/1000000000000 := by
    simp only [l1, List.map_cons, List.map_nil, List.sum_cons, List.sum_nil]
    norm_num
  have hpipe : sanitizePipeline 4 [.fin (3/1000000000000), .fin 0, .fin 0, .fin 0] =
      [3/1000000000000, 0, 0, 0] := by
    simp only [sanitizePipeline]
    norm_num [sanitizeComponent, l1, eps12]
    intro h
    rw [abs_of_pos (by norm_num : (0 : ℚ) < 3/1000000000000)] at h
    norm_num at h
  have hemb : embed_text 4 "hello" [] = [0, 0, 0, 0] := by decide
  refine ⟨hpipe, ?_, hemb, ?_⟩
  · rw [hpipe, hl1]
    norm_num [eps8]
  · rw [hemb]
    simp only [l1, List.map_cons, List.map_nil, List.sum_cons, List.sum_nil]
    norm_num

/-- C6 (amended). The vector produced by
`EmbeddingService.create_embedding` for any upstream payload has length
exactly `D`, only finite components (the sanitizer output by
construction), L1 norm at least the `1e-12` guard threshold (not `ε × D`),
and when the provider scan yields nothing it is exactly the uniform `1e-8`
vector. The `embed_text` wrapper, by contrast, returns the unsanitized
all-zero vector on failure. -/
theorem C6_sanitized_embedding_shape (D : ℕ) (api : List PyVal) (hD : 0 < D) :
    (sanitizePipeline D api).length = D ∧
    (api = [] → sanitizePipeline D api = List.replicate D eps8) ∧
    eps12 ≤ l1 (sanitizePipeline D api) ∧
    embed_text D "hello" [] = List.replicate D 0 := by
  have heps : (0 : ℚ) < eps8 := by norm_num [eps8]
  have habs : |eps8| = eps8 := abs_of_pos heps
  have hDeps : eps12 ≤ (D : ℚ) * eps8 := by
    have h1 : (1 : ℚ) ≤ (D : ℚ) := by exact_mod_cast hD
    have : eps8 ≤ (D : ℚ) * eps8 := le_mul_of_one_le_left (le_of_lt heps) h1
    have h2 : eps12 ≤ eps8 := by norm_num [eps8, eps12]
    linarith
  have hsized : ∀ b : List PyVal,
      (if b.length < D then b ++ List.replicate (D - b.length) (PyVal.fin eps8)
       else b.take D).length = D := by
    intro b
    by_cases h : b.length < D
    · rw [if_pos h]
      simp [Nat.add_sub_cancel' (le_of_lt h)]
    · rw [if_neg h]
      simp [Nat.min_eq_left (not_lt.1 h)]
  have hlen : (sanitizePipeline D api).length = D := by
    unfold sanitizePipeline
    by_cases hg : l1 ((if (if api.isEmpty then List.replicate D (PyVal.fin eps8)
        else api).length < D then
          (if api.isEmpty then List.replicate D (PyVal.fin eps8) else api) ++
            List.replicate (D - (if api.isEmpty then List.replicate D (PyVal.fin eps8)
              else api).length) (PyVal.fin eps8)
        else (if api.isEmpty then List.replicate D (PyVal.fin eps8)
          else api).take D).map sanitizeComponent) < eps12
    · rw [if_pos hg]
      simp [hsized]
    · rw [if_neg hg]
      simp [hsized]
  refine ⟨hlen, ?_, ?_, by simp [embed_text]⟩
  · intro hapi
    subst hapi
    unfold sanitizePipeline
    have hbase : (([] : List PyVal).isEmpty) = true := rfl
    rw [hbase]
    simp only [if_true, List.length_replicate, lt_irrefl, if_false,
      List.take_replicate, Nat.min_self, List.map_replicate, sanitizeComponent]
    rw [l1_replicate, habs]
    rw [if_neg (not_lt.2 hDeps)]
  · unfold sanitizePipeline
    set vec := (if (if api.isEmpty then List.replicate D (PyVal.fin eps8)
        else api).length < D then
          (if api.isEmpty then List.replicate D (PyVal.fin eps8) else api) ++
            List.replicate (D - (if api.isEmpty then List.replicate D (PyVal.fin eps8)
              else api).length) (PyVal.fin eps8)
        else (if api.isEmpty then List.replicate D (PyVal.fin eps8)
          else api).take D).map sanitizeComponent with hvec
    by_cases hg : l1 vec < eps12
    · rw [if_pos hg, l1_replicate, habs]
      have hv : vec.length = D := by
        rw [hvec]
        simp [hsized]
      rw [hv]
      exact hDeps
    · rw [if_neg hg]
      exact not_lt.1 hg

/-- Witness for C6 (amended) at `D = 3` and a payload carrying a non-finite
component. -/
theorem C6_witness :
    (sanitizePipeline 3 [.fin 1, .nonfin]).length = 3 ∧
    sanitizePipeline 3 [] = List.replicate 3 eps8 ∧
    eps12 ≤ l1 (sanitizePipeline 3 [.fin 1, .nonfin]) ∧
    embed_text 3 "hello" [] = List.replicate 3 0 := by
  have h1 := C6_sanitized_embedding_shape 3 [.fin 1, .nonfin] (by decide)
  have h2 := C6_sanitized_embedding_shape 3 [] (by decide)
  exact ⟨h1.1, h2.2.1 rfl, h1.2.2.1, h1.2.2.2⟩

/-! ## Embedding provider scan and the sticky model (C8) -/

/-- Outcome of one full attempt (both endpoint shapes) against one model in
the legacy gateway: a vector was obtained, an exception was raised, or the
calls answered without a recognizable embedding in the payload. -/
inductive EmbedOutcome
  | ok (v : Vec)
  | err
  | empty
deriving Repr, DecidableEq

/-- The loop of the legacy `ollama_embed`
(`src/LEGACY/ghostwire_controller.py`, lines 296-415): walk the candidate
list; a success returns the vector and caches the model; an exception
clears the sticky cache only when it names the cached model and the walk
continues; a shape miss leaves the cache untouched; exhaustion returns the
empty vector. -/
def legacyEmbedGo (oracle : String → EmbedOutcome) :
    List String → Option String → Vec × Option String
  | [], sticky => ([], sticky)
  | m :: rest, sticky =>
    match oracle m with
    | .ok v => (v, some m)
    | .err => legacyEmbedGo oracle rest (if sticky = some m then none else sticky)
    | .empty => legacyEmbedGo oracle rest sticky

/-- Embedding of `ollama_embed`: when a sticky model is cached it is the
single candidate (`candidate_models = [_cached_embed_model]`); otherwise
the configured list is walked. -/
def legacyEmbed (oracle : String → EmbedOutcome) (models : List String)
    (sticky : Option String) : Vec × Option String :=
  match sticky with
  | some m => legacyEmbedGo oracle [m] (some m)
  | none => legacyEmbedGo oracle models none

/-- One `_get_embedding_from_api` attempt per model in the service gateway:
the empty list signals failure (exceptions are swallowed inside). The scan
walks `settings.EMBED_MODELS` and stops at the first success. -/
def serviceScan (oracle : String → Vec) : List String → Option (Vec × String)
  | [] => none
  | m :: rest =>
    if (oracle m).isEmpty then serviceScan oracle rest
    else some (oracle m, m)

/-- Embedding of the per-input provider logic of
`EmbeddingService.create_embedding` (lines 105-124): the sticky model is
tried first when present; if that yields nothing the whole configured list
is scanned within the same call, the sticky cache becoming the first
succeeding model; when everything fails the sticky cache is left unchanged
and the empty vector flows into the sanitization fallback. -/
def serviceEmbedOnce (oracle : String → Vec) (models : List String)
    (sticky : Option String) : Vec × Option String :=
  let first := match sticky with
    | some m => oracle m
    | none => []
  if first.isEmpty then
    match serviceScan oracle models with
    | some vm => (vm.1, some vm.2)
    | none => ([], sticky)
  else (first, sticky)

/-- Counterexample to C8 as stated: in the legacy gateway a failing sticky
model `m1` makes the call return the empty vector with the cache cleared,
even though the remaining configured candidate `m2` would succeed — the
remaining candidates are not tried within the same call. And in the
service gateway a total failure leaves the sticky choice in place instead
of clearing it. -/
theorem C8_counterexample :
    legacyEmbed (fun m => if m = "m2" then .ok [1] else .err) ["m1", "m2"]
      (some "m1") = ([], none) ∧
    (fun m => if m = "m2" then EmbedOutcome.ok [1] else .err) "m2" = .ok [1] ∧
    serviceEmbedOnce (fun _ => []) ["m1", "m2"] (some "m1") = ([], some "m1") := by
  refine ⟨?_, rfl, ?_⟩ <;> rfl

/-- C8 (amended). Legacy gateway: with a sticky model cached, only it is
tried; on success the sticky choice is kept, and on failure the sticky
choice is cleared and the call returns the empty vector without trying the
remaining configured candidates (they are retried only on the next call,
the cache now empty). Service gateway: when the sticky model fails, the
whole configured list is scanned within the same call; the sticky choice is
updated to the first succeeding candidate, and is left unchanged — not
cleared — when every candidate fails. -/
theorem C8_sticky_scan (okOracle errOracle : String → EmbedOutcome)
    (soracle : String → Vec) (models1 models2 models3 : List String)
    (m : String) (v : Vec)
    (hok : okOracle m = .ok v)
    (herr : errOracle m = .err)
    (hfail : (soracle m).isEmpty = true) :
    legacyEmbed okOracle models1 (some m) = (v, some m) ∧
    legacyEmbed errOracle models2 (some m) = ([], none) ∧
    (serviceScan soracle models3 = none →
      serviceEmbedOnce soracle models3 (some m) = ([], some m)) ∧
    (∀ vm, serviceScan soracle models3 = some vm →
      serviceEmbedOnce soracle models3 (some m) = (vm.1, some vm.2)) := by
  refine ⟨?_, ?_, ?_, ?_⟩
  · simp only [legacyEmbed, legacyEmbedGo, hok]
  · simp only [legacyEmbed, legacyEmbedGo, herr, eq_self_iff_true, if_true]
  · intro hnone
    simp only [serviceEmbedOnce, hfail, if_true, hnone]
  · intro vm hsome
    simp only [serviceEmbedOnce, hfail, if_true, hsome]

/-- Witness for C8 (amended) with concrete oracles: a sticky success, a
sticky failure, and a service scan whose second candidate succeeds. -/
theorem C8_witness :
    legacyEmbed (fun _ => .ok [1]) ["m1", "m2"] (some "m1") = ([1], some "m1") ∧
    legacyEmbed (fun _ => .err) ["m1", "m2"] (some "m1") = ([], none) ∧
    serviceEmbedOnce (fun m => if m = "m2" then [2] else []) ["m1", "m2"]
      (some "m1") = ([2], some "m2") := by
  have h := C8_sticky_scan (fun _ => .ok [1]) (fun _ => .err)
    (fun m => if m = "m2" then [2] else []) ["m1", "m2"] ["m1", "m2"] ["m1", "m2"]
    "m1" [1] rfl rfl (by decide)
  exact ⟨h.1, h.2.1, h.2.2.2 ([2], "m2") (by decide)⟩

end Ghostwire
